import Mathlib

/-!
Verification of the watermark generation engine (src/src/lib.rs, src/src/main.rs).

Modelling conventions:
* The Rust code computes with `f32`; the embedding computes with exact
  rationals (`ℚ`).  Float literals such as `0.1`, `30.0`, `1.5` become the
  rational literals `1/10`, `30`, `3/2`.
* The transcendental float primitives `sqrt`, `cos`, `sin` and
  `to_radians` have no exact rational counterpart; they are passed in as an
  oracle record `FloatOps`, and every theorem quantifies over the oracle.
  All the control flow and arithmetic around them is translated literally.
* The PDF object model (lopdf) is external to the repository; the small
  slice the code uses (objects, dictionaries, streams, references) is
  modelled by the inductive `PObj`, and a document by a partial map from
  object ids to objects.  `add_to_page_content`, whose body lives in lopdf,
  is passed as an oracle function where it is needed.
* A font scaled to a point size (`ab_glyph`, also external) is modelled by
  `ScaledFont`: per character an optional outline in design units plus the
  already-scaled horizontal advance, and the two scale factors.  This is
  exactly the interface `font.as_scaled(PxScale::from(size))` offers the
  code, so the `size` argument of the Rust functions is absorbed into the
  `ScaledFont` value.
* Loops whose termination depends on float arithmetic (the `while` loops of
  `build_watermark_grid_ops_xobject` and the unbounded parent walk of
  `get_page_rotation` in src/src/main.rs) are modelled with an explicit fuel
  parameter; returning `none` (or the empty list) at fuel 0 marks an
  execution that has not finished within that many iterations.
* The depth-bounded walk of `get_page_rotation` in src/src/lib.rs counts
  depth 0,1,2,… and breaks once `depth > MAX_PARENT_DEPTH`; the embedding
  counts the same quantity downwards (`fuel = MAX_PARENT_DEPTH + 1 - depth`)
  so that the recursion is structural; the two forms visit exactly the same
  nodes.
-/

namespace Watermark

/-! ## PDF content operations -/

/-- An operand of a content-stream operation: a number or a name. -/
inductive Operand where
  | num (q : ℚ)
  | name (s : String)
deriving DecidableEq

/-- One content-stream operation (lopdf `Operation`): operator and operands. -/
structure Operation where
  operator : String
  operands : List Operand
deriving DecidableEq

/-- Number of operations in `l` whose operator is `nm`. -/
def opCount (nm : String) (l : List Operation) : ℕ :=
  (l.filter (fun o => o.operator == nm)).length

/-! ## Constants (src/src/lib.rs lines 13-50) -/

def DEFAULT_FONT_SIZE : ℚ := 26
def GRID_HORIZONTAL_GAP : ℚ := 30
def GRID_VERTICAL_MULTIPLIER : ℚ := 6
def WATERMARK_ANGLE_DEG : ℚ := 60
def CENTER_X_OFFSET : ℚ := 0
def CENTER_Y_OFFSET : ℚ := 0
def COVERAGE_MULTIPLIER : ℚ := 3 / 2
def VISIBILITY_MARGIN : ℚ := 50
def MAX_ALLOWED_WATERMARKS : ℕ := 1000000
def MIN_GRID_STEP_SIZE : ℚ := 1 / 10
def MAX_PARENT_DEPTH : ℕ := 10

/-! ## Oracle for the float-transcendental primitives -/

/-- The four `f32` primitives the grid planner uses that have no exact
rational meaning.  Theorems quantify over this record. -/
structure FloatOps where
  sqrt : ℚ → ℚ
  cos : ℚ → ℚ
  sin : ℚ → ℚ
  toRadians : ℚ → ℚ

/-! ## Grid planner (src/src/lib.rs, `build_watermark_grid_ops_xobject_optimized`) -/

/-- Error values of the grid planner; the Rust code returns boxed strings,
distinguished here by constructor: the "Grid step too small" sizing error
and the "Too many watermarks to render" density error. -/
inductive GridErr where
  | stepTooSmall (inner outer : ℚ)
  | tooMany (estimated : ℕ)
deriving DecidableEq

/-- `diag` of lib.rs line 590: `sqrt(width² + height²) * COVERAGE_MULTIPLIER`. -/
def gridDiag (F : FloatOps) (width height : ℚ) : ℚ :=
  F.sqrt (width ^ 2 + height ^ 2) * COVERAGE_MULTIPLIER

/-- `v_count` of lib.rs lines 595-598: ceiling of the v-span over the outer
step, clamped at zero (`.max(0) as usize` is `Int.toNat`). -/
def gridVCount (F : FloatOps) (size width height : ℚ) : ℕ :=
  let diag := gridDiag F width height
  let v_start := -diag - 200
  let v_end := diag
  (Int.ceil ((v_end - v_start) / (size * GRID_VERTICAL_MULTIPLIER))).toNat

/-- `u_count` of lib.rs lines 600-603. -/
def gridUCount (F : FloatOps) (width height text_w : ℚ) : ℕ :=
  let diag := gridDiag F width height
  let u_start := -diag
  let u_end := diag
  (Int.ceil ((u_end - u_start) / (text_w + GRID_HORIZONTAL_GAP))).toNat

/-- Loop body for one `(vi, ui)` anchor, lib.rs lines 616-644: rotate the
local offsets into page space, cull against the visibility margin, and for a
surviving anchor emit the four-operation group `q`, `cm`, `Do`, `Q`. -/
def anchorOps (xName : String) (c s cx cy width height u v : ℚ) : List Operation :=
  let x := cx + u * c - v * s
  let y := cy + u * s + v * c
  if x > -VISIBILITY_MARGIN ∧ x < width + VISIBILITY_MARGIN ∧
      y > -VISIBILITY_MARGIN ∧ y < height + VISIBILITY_MARGIN then
    [⟨"q", []⟩,
     ⟨"cm", [.num c, .num s, .num (-s), .num c, .num x, .num y]⟩,
     ⟨"Do", [.name xName]⟩,
     ⟨"Q", []⟩]
  else []

/-- The integer-indexed double loop of lib.rs lines 612-646. -/
def gridLoop (xName : String) (c s cx cy width height v_start step_outer u_start
    step_inner : ℚ) (v_count u_count : ℕ) : List Operation :=
  (List.range (v_count + 1)).flatMap fun vi =>
    (List.range (u_count + 1)).flatMap fun ui =>
      anchorOps xName c s cx cy width height
        (u_start + (ui : ℚ) * step_inner) (v_start + (vi : ℚ) * step_outer)

/-- `build_watermark_grid_ops_xobject_optimized` (lib.rs lines 561-649). -/
def build_watermark_grid_ops (F : FloatOps) (xName : String)
    (size angle width height text_w page_rotation : ℚ) :
    Except GridErr (List Operation) :=
  let step_inner := text_w + GRID_HORIZONTAL_GAP
  let step_outer := size * GRID_VERTICAL_MULTIPLIER
  if ¬(step_inner > MIN_GRID_STEP_SIZE ∧ step_outer > MIN_GRID_STEP_SIZE) then
    .error (.stepTooSmall step_inner step_outer)
  else
    let effective_angle := angle + page_rotation
    let rad := F.toRadians effective_angle
    let c := F.cos rad
    let s := F.sin rad
    let diag := gridDiag F width height
    let cx := width / 2 + CENTER_X_OFFSET
    let cy := height / 2 - CENTER_Y_OFFSET
    let v_start := -diag - 200
    let u_start := -diag
    let v_count := gridVCount F size width height
    let u_count := gridUCount F width height text_w
    -- `v_count.saturating_mul(u_count)`: ℕ multiplication never overflows, and
    -- a saturated usize product and the exact product are both above the cap,
    -- so the comparison below decides identically.
    let estimated := v_count * u_count
    if estimated > MAX_ALLOWED_WATERMARKS then
      .error (.tooMany estimated)
    else
      .ok (gridLoop xName c s cx cy width height v_start step_outer u_start
            step_inner v_count u_count)

/-- The operation list of a planner result: the emitted list on success,
nothing on error. -/
def resultOps : Except GridErr (List Operation) → List Operation
  | .ok l => l
  | .error _ => []

/-! ## Glyph vectorizer (src/src/lib.rs, `text_to_pdf_paths`) -/

/-- A 2D outline point in font design units (`ab_glyph::Point`). -/
structure Pt where
  x : ℚ
  y : ℚ
deriving DecidableEq

/-- One outline segment (`ab_glyph::OutlineCurve`). -/
inductive OutlineCurve where
  | line (p0 p1 : Pt)
  | quad (p0 p1 p2 : Pt)
  | cubic (p0 p1 p2 p3 : Pt)
deriving DecidableEq

/-- What the font offers per character: an optional outline and the scaled
horizontal advance (`scaled_font.h_advance(glyph_id)`). -/
structure Glyph where
  outline : Option (List OutlineCurve)
  hAdvance : ℚ

/-- A font already scaled to a point size (`font.as_scaled(scale)`). -/
structure ScaledFont where
  glyph : Char → Glyph
  hFactor : ℚ
  vFactor : ℚ

/-- `f32::abs`. -/
def fabs (q : ℚ) : ℚ := if q < 0 then -q else q

/-- The start point of a segment (lib.rs lines 314-318). -/
def segP0 : OutlineCurve → Pt
  | .line p0 _ => p0
  | .quad p0 _ _ => p0
  | .cubic p0 _ _ _ => p0

/-- The end point of a segment (the point stored into `last_point`). -/
def segEnd : OutlineCurve → Pt
  | .line _ p1 => p1
  | .quad _ _ p2 => p2
  | .cubic _ _ _ p3 => p3

/-- The new-contour test of lib.rs lines 321-324: no previous point, or the
segment's start differs from it by more than 0.001 in either coordinate. -/
def isNewContour (lp : Option Pt) (p0 : Pt) : Bool :=
  match lp with
  | none => true
  | some lpt =>
      decide (fabs (p0.x - lpt.x) > 1 / 1000) || decide (fabs (p0.y - lpt.y) > 1 / 1000)

/-- The drawing primitive one segment emits (lib.rs lines 339-383): `l` for a
line, `c` for a cubic, and for a quadratic the cubic obtained by degree
elevation with control points `P0 + 2/3 (P1 - P0)` and `P2 + 2/3 (P1 - P2)`. -/
def segDrawOp (xc ys hf vf : ℚ) : OutlineCurve → Operation
  | .line _ p1 =>
      ⟨"l", [.num (xc + p1.x * hf), .num (ys + p1.y * vf)]⟩
  | .quad p0 p1 p2 =>
      let q1x := p0.x + (2 / 3) * (p1.x - p0.x)
      let q1y := p0.y + (2 / 3) * (p1.y - p0.y)
      let q2x := p2.x + (2 / 3) * (p1.x - p2.x)
      let q2y := p2.y + (2 / 3) * (p1.y - p2.y)
      ⟨"c", [.num (xc + q1x * hf), .num (ys + q1y * vf),
             .num (xc + q2x * hf), .num (ys + q2y * vf),
             .num (xc + p2.x * hf), .num (ys + p2.y * vf)]⟩
  | .cubic _ p1 p2 p3 =>
      ⟨"c", [.num (xc + p1.x * hf), .num (ys + p1.y * vf),
             .num (xc + p2.x * hf), .num (ys + p2.y * vf),
             .num (xc + p3.x * hf), .num (ys + p3.y * vf)]⟩

/-- The per-glyph segment loop of lib.rs lines 313-384, threading the
`last_point` state: on a new contour, close the previous one (when a
previous point exists) and move to the transformed start point; then emit
the segment's drawing primitive. -/
def outlineOps (xc ys hf vf : ℚ) : List OutlineCurve → Option Pt → List Operation
  | [], _ => []
  | cv :: rest, lp =>
      let p0 := segP0 cv
      (if isNewContour lp p0 then
        (if lp.isSome then [⟨"h", []⟩] else []) ++
          [⟨"m", [.num (xc + p0.x * hf), .num (ys + p0.y * vf)]⟩]
      else []) ++
      (segDrawOp xc ys hf vf cv :: outlineOps xc ys hf vf rest (some (segEnd cv)))

/-- The value of `last_point` after the segment loop. -/
def lastPointAfter : List OutlineCurve → Option Pt → Option Pt
  | [], lp => lp
  | cv :: rest, _ => lastPointAfter rest (some (segEnd cv))

/-- The per-character body of lib.rs lines 309-389: glyphs with an outline
contribute the segment loop's operations plus a final close-path when a
last point exists; glyphs without an outline contribute nothing. -/
def charOps (f : ScaledFont) (ys xc : ℚ) (ch : Char) : List Operation :=
  match (f.glyph ch).outline with
  | some cs =>
      outlineOps xc ys f.hFactor f.vFactor cs none ++
        (if (lastPointAfter cs none).isSome then [⟨"h", []⟩] else [])
  | none => []

/-- The character loop of lib.rs lines 308-390, threading the cursor: each
character appends its operations and advances the cursor by its scaled
advance whether or not it had an outline.  Returns the operations and the
final cursor. -/
def textOpsCursor (f : ScaledFont) (ys : ℚ) : List Char → ℚ → List Operation × ℚ
  | [], xc => ([], xc)
  | ch :: rest, xc =>
      let this := charOps f ys xc ch
      let r := textOpsCursor f ys rest (xc + (f.glyph ch).hAdvance)
      (this ++ r.1, r.2)

/-- `text_to_pdf_paths` (lib.rs lines 289-395): the fixed prelude `q`, `gs`,
`rg`, the per-character path operations, then one `f` fill and a `Q`. -/
def text_to_pdf_paths (f : ScaledFont) (text : List Char) (x_start y_start : ℚ) :
    List Operation :=
  [⟨"q", []⟩,
   ⟨"gs", [.name "GS1"]⟩,
   ⟨"rg", [.num (1 / 10), .num (1 / 10), .num (1 / 10)]⟩] ++
  (textOpsCursor f y_start text x_start).1 ++
  [⟨"f", []⟩, ⟨"Q", []⟩]

/-- `measure_text_width` (lib.rs lines 406-413): fold the scaled advances. -/
def measure_text_width (f : ScaledFont) (text : List Char) : ℚ :=
  text.foldl (fun w ch => w + (f.glyph ch).hAdvance) 0

/-! ## PDF document model -/

/-- A PDF object id (`lopdf::ObjectId`, a `(u32, u16)` pair). -/
abbrev ObjId := ℕ × ℕ

/-- The slice of `lopdf::Object` the code inspects. -/
inductive PObj where
  | null
  | integer (n : ℤ)
  | real (q : ℚ)
  | name (s : String)
  | reference (id : ObjId)
  | array (elems : List PObj)
  | dict (entries : List (String × PObj))
  | stream (entries : List (String × PObj))

/-- A document's object table (`Document::get_object`): a partial map from
ids to objects. -/
abbrev PDoc := ObjId → Option PObj

/-- Dictionary lookup (`Dictionary::get`): first entry with the key. -/
def dictGet (k : String) : List (String × PObj) → Option PObj
  | [] => none
  | (k1, v) :: rest => if k1 = k then some v else dictGet k rest

/-- `Dictionary::has`. -/
def dictHas (k : String) (entries : List (String × PObj)) : Bool :=
  (dictGet k entries).isSome

/-- `Dictionary::set`: replace the entry with the key, or append it. -/
def dictSet (k : String) (v : PObj) : List (String × PObj) → List (String × PObj)
  | [] => [(k, v)]
  | (k1, v1) :: rest => if k1 = k then (k, v) :: rest else (k1, v1) :: dictSet k v rest

/-- The dictionary of a dictionary-like object: `Object::Dictionary(d)`
gives `d`, `Object::Stream(s)` gives `s.dict`, anything else none. -/
def objDict : PObj → Option (List (String × PObj))
  | .dict entries => some entries
  | .stream entries => some entries
  | _ => none

/-- `obj_to_f32` (lib.rs lines 440-446): reals and integers convert, every
other object becomes `0.0`. -/
def obj_to_f32 : PObj → ℚ
  | .real r => r
  | .integer n => (n : ℚ)
  | _ => 0

/-- Replace the object stored at an id. -/
def setObj (doc : PDoc) (id : ObjId) (o : PObj) : PDoc :=
  fun j => if j = id then some o else doc j

/-- `page_size` (lib.rs lines 420-437): the page object's `MediaBox`, when it
is an array of length at least 4, yields `(urx - llx, ury - lly)` with each
entry coerced by `obj_to_f32`; anything else yields none. -/
def page_size (doc : PDoc) (pid : ObjId) : Option (ℚ × ℚ) :=
  match doc pid with
  | none => none
  | some obj =>
    match objDict obj with
    | none => none
    | some d =>
      match dictGet "MediaBox" d with
      | some (.array arr) =>
          if 4 ≤ arr.length then
            some (obj_to_f32 (arr.getD 2 .null) - obj_to_f32 (arr.getD 0 .null),
                  obj_to_f32 (arr.getD 3 .null) - obj_to_f32 (arr.getD 1 .null))
          else none
      | _ => none

/-- The page size the per-page loop uses (lib.rs line 219):
`page_size(..).unwrap_or((595.0, 842.0))`. -/
def pageSizeOrDefault (doc : PDoc) (pid : ObjId) : ℚ × ℚ :=
  (page_size doc pid).getD (595, 842)

/-- Resolution of a `Rotate` value (lib.rs lines 471-481): a direct integer,
or a reference whose target is an integer; anything else does not resolve. -/
def rotateResolve (doc : PDoc) : PObj → Option ℤ
  | .integer r => some r
  | .reference rid =>
    match doc rid with
    | some (.integer r) => some r
    | _ => none
  | _ => none

/-- The parent id a dictionary hands the walk (lib.rs lines 486-490):
a `Parent` entry that is a reference; anything else ends the walk. -/
def parentNext (d : List (String × PObj)) : Option ObjId :=
  match dictGet "Parent" d with
  | some (.reference p) => some p
  | _ => none

/-- The bounded ancestor walk of `get_page_rotation` (lib.rs lines 455-497).
The Rust loop counts `depth` upward and breaks once `depth > MAX_PARENT_DEPTH`;
here `fuel` counts the remaining allowance (`MAX_PARENT_DEPTH + 1 - depth`)
downward so the recursion is structural — the same nodes are visited.
A missing current id, a failed object lookup or a non-dictionary-like object
end the walk with 0; a resolvable `Rotate` entry returns its value. -/
def get_page_rotation_go (doc : PDoc) : ℕ → Option ObjId → ℚ
  | _, none => 0
  | 0, some _ => 0
  | fuel + 1, some id =>
    match doc id with
    | none => 0
    | some obj =>
      match objDict obj with
      | none => 0
      | some d =>
        match (dictGet "Rotate" d).bind (rotateResolve doc) with
        | some r => (r : ℚ)
        | none => get_page_rotation_go doc fuel (parentNext d)

/-- `get_page_rotation` (lib.rs lines 455-497). -/
def get_page_rotation (doc : PDoc) (pid : ObjId) : ℚ :=
  get_page_rotation_go doc (MAX_PARENT_DEPTH + 1) (some pid)

/-- The resource surgery shared by the dictionary and stream arms of
`add_xobject_to_page` (lib.rs lines 512-535): ensure `Resources` exists,
require it to be a dictionary, ensure `XObject` exists inside it, require it
to be a dictionary, and register the reference under the given name.
`as_dict_mut` on a non-dictionary is the error path. -/
def addXObjectEntries (xName : String) (xid : ObjId) (d : List (String × PObj)) :
    Except String (List (String × PObj)) :=
  let d1 := if dictHas "Resources" d then d else dictSet "Resources" (.dict []) d
  match dictGet "Resources" d1 with
  | some (.dict rd) =>
    let rd1 := if dictHas "XObject" rd then rd else dictSet "XObject" (.dict []) rd
    match dictGet "XObject" rd1 with
    | some (.dict xd) =>
        .ok (dictSet "Resources"
              (.dict (dictSet "XObject" (.dict (dictSet xName (.reference xid) xd)) rd1)) d1)
    | _ => .error "as_dict_mut failed"
  | _ => .error "as_dict_mut failed"

/-- `add_xobject_to_page` (lib.rs lines 504-539): pages that are dictionaries
or streams get the resource entry; anything else is the error
"page object is not a Dictionary or Stream". -/
def add_xobject_to_page (doc : PDoc) (pid : ObjId) (xName : String) (xid : ObjId) :
    Except String PDoc :=
  match doc pid with
  | none => .error "object not found"
  | some (.dict d) => (addXObjectEntries xName xid d).map fun d1 => setObj doc pid (.dict d1)
  | some (.stream d) => (addXObjectEntries xName xid d).map fun d1 => setObj doc pid (.stream d1)
  | some _ => .error "page object is not a Dictionary or Stream"

/-! ## The per-page loop of `run_watermark_process` (lib.rs lines 218-257) -/

/-- How one page of the loop ended. -/
inductive PageOutcome where
  | ok
  | skippedResources
  | skippedGrid (e : GridErr)
  | skippedContent
deriving DecidableEq

/-- The per-page loop of `run_watermark_process` (lib.rs lines 218-257),
over the page list `get_pages` produced.  `appendContent` is the oracle for
lopdf's `add_to_page_content`.  Every failing step logs and `continue`s to
the next page; the loop itself never aborts.  Returns the mutated document
and one outcome per page. -/
def processPages (F : FloatOps)
    (appendContent : PDoc → ObjId → List Operation → Except String PDoc)
    (xid : ObjId) (text_w : ℚ) (doc : PDoc) :
    List (ℕ × ObjId) → PDoc × List (ℕ × PageOutcome)
  | [] => (doc, [])
  | (pageNum, pid) :: rest =>
    let wh := pageSizeOrDefault doc pid
    let page_rotation := get_page_rotation doc pid
    match add_xobject_to_page doc pid "Watermark1" xid with
    | .error _ =>
      let r := processPages F appendContent xid text_w doc rest
      (r.1, (pageNum, .skippedResources) :: r.2)
    | .ok doc1 =>
      match build_watermark_grid_ops F "Watermark1" DEFAULT_FONT_SIZE
          WATERMARK_ANGLE_DEG wh.1 wh.2 text_w page_rotation with
      | .error e =>
        let r := processPages F appendContent xid text_w doc1 rest
        (r.1, (pageNum, .skippedGrid e) :: r.2)
      | .ok ops =>
        match appendContent doc1 pid ops with
        | .error _ =>
          let r := processPages F appendContent xid text_w doc1 rest
          (r.1, (pageNum, .skippedContent) :: r.2)
        | .ok doc2 =>
          let r := processPages F appendContent xid text_w doc2 rest
          (r.1, (pageNum, .ok) :: r.2)

/-! ## The grid planner variant of src/src/main.rs (`build_watermark_grid_ops_xobject`) -/

/-- The inner `while u < diag` loop of main.rs lines 382-399, with fuel. -/
def mainULoop (xName : String) (c s cx cy text_w width height step_inner diag : ℚ) :
    ℕ → ℚ → ℚ → List Operation
  | 0, _, _ => []
  | fuel + 1, u, v =>
    if u < diag then
      (let x := cx + u * c - v * s
       let y := cy + u * s + v * c
       if x > -text_w ∧ x < width + 100 ∧ y > -200 ∧ y < height + 100 then
        [⟨"q", []⟩,
         ⟨"cm", [.num c, .num s, .num (-s), .num c, .num x, .num y]⟩,
         ⟨"Do", [.name xName]⟩,
         ⟨"Q", []⟩]
       else []) ++
      mainULoop xName c s cx cy text_w width height step_inner diag fuel (u + step_inner) v
    else []

/-- The outer `while v < diag` loop of main.rs lines 380-401, with fuel. -/
def mainVLoop (xName : String) (c s cx cy text_w width height step_inner step_outer
    diag : ℚ) : ℕ → ℕ → ℚ → List Operation
  | 0, _, _ => []
  | fuelV + 1, fuelU, v =>
    if v < diag then
      mainULoop xName c s cx cy text_w width height step_inner diag fuelU (-diag) v ++
      mainVLoop xName c s cx cy text_w width height step_inner step_outer diag fuelV fuelU
        (v + step_outer)
    else []

/-- `build_watermark_grid_ops_xobject` (main.rs lines 352-403).  Note the
`_page_rotation` parameter: the source binds it but never uses it, so the
rotation angle is computed from `angle_deg` alone. -/
def main_build_watermark_grid_ops (F : FloatOps) (fuelV fuelU : ℕ) (xName : String)
    (size angle_deg width height : ℚ) (_page_rotation : ℚ)
    (font : ScaledFont) (text : List Char) : List Operation :=
  let text_w := measure_text_width font text
  let step_inner := text_w + 30
  let step_outer := size * 6
  let rad := F.toRadians angle_deg
  let c := F.cos rad
  let s := F.sin rad
  let diag := F.sqrt (width ^ 2 + height ^ 2) * (5 / 2)
  let cx := width / 2 + 50
  let cy := height / 2 - 100
  mainVLoop xName c s cx cy text_w width height step_inner step_outer diag fuelV fuelU
    (-diag - 200)

/-- The unbounded parent walk of `get_page_rotation` in main.rs lines
255-324, with fuel: `none` marks an execution still running after `fuel`
iterations.  Apart from the missing depth bound the walk is the one of
lib.rs: dictionary-like nodes are searched for a resolvable `Rotate`,
anything else ends the walk with 0. -/
def main_get_page_rotation_go (doc : PDoc) : ℕ → Option ObjId → Option ℚ
  | _, none => some 0
  | 0, some _ => none
  | fuel + 1, some id =>
    match doc id with
    | none => some 0
    | some obj =>
      match objDict obj with
      | none => some 0
      | some d =>
        match (dictGet "Rotate" d).bind (rotateResolve doc) with
        | some r => some ((r : ℚ))
        | none => main_get_page_rotation_go doc fuel (parentNext d)

/-! ## Specification-side definitions (used only in theorem statements) -/

/-- Scan of the claim's reading of the rotation lookup: walk a linear
ancestor chain, return the first rotation found while the depth stays
within `MAX_PARENT_DEPTH`, and 0 otherwise. -/
def firstRotWithin : List (Option ℤ) → ℕ → ℚ
  | [], _ => 0
  | o :: rest, depth =>
    if MAX_PARENT_DEPTH < depth then 0
    else
      match o with
      | some r => (r : ℚ)
      | none => firstRotWithin rest (depth + 1)

/-- A linear chain document: node `n` (id `(n, 0)`, for `n < rots.length`)
is a dictionary carrying `Rotate rots[n]` when that entry is set and a
`Parent` reference to node `n+1` when one exists. -/
def chainDoc (rots : List (Option ℤ)) : PDoc := fun id =>
  if id.2 = 0 ∧ id.1 < rots.length then
    some (.dict
      ((match rots.getD id.1 none with
        | some r => [("Rotate", PObj.integer r)]
        | none => []) ++
       (if id.1 + 1 < rots.length then [("Parent", PObj.reference (id.1 + 1, 0))] else [])))
  else none

/-- A one-node document whose page is its own parent and has no rotation. -/
def cycDoc : PDoc := fun id =>
  if id = (1, 0) then some (.dict [("Parent", PObj.reference (1, 0))]) else none

/-- Number of new-contour events in a segment list, from the given previous
point: the claim's contour count. -/
def contourCountAux : List OutlineCurve → Option Pt → ℕ
  | [], _ => 0
  | cv :: rest, lp =>
    (if isNewContour lp (segP0 cv) then 1 else 0) + contourCountAux rest (some (segEnd cv))

/-- Contours of one character's glyph. -/
def glyphContourCount (f : ScaledFont) (ch : Char) : ℕ :=
  match (f.glyph ch).outline with
  | some cs => contourCountAux cs none
  | none => 0

/-- Total contours over a text. -/
def textContourCount (f : ScaledFont) (text : List Char) : ℕ :=
  (text.map (glyphContourCount f)).sum

/-- The sequence is a concatenation of four-operation groups
`q`, `cm`, `Do`, `Q`. -/
def quadGroups : List Operation → Bool
  | [] => true
  | o1 :: o2 :: o3 :: o4 :: rest =>
    o1.operator == "q" && o2.operator == "cm" && o3.operator == "Do" &&
      o4.operator == "Q" && quadGroups rest
  | _ => false

/-! ## Helper lemmas -/

theorem opCount_nil (nm : String) : opCount nm [] = 0 := rfl

theorem opCount_cons (nm : String) (o : Operation) (l : List Operation) :
    opCount nm (o :: l) = (if o.operator == nm then 1 else 0) + opCount nm l := by
  by_cases h : o.operator == nm
  · simp [opCount, List.filter_cons, h]; omega
  · simp [opCount, List.filter_cons, h]

theorem opCount_append (nm : String) (l1 l2 : List Operation) :
    opCount nm (l1 ++ l2) = opCount nm l1 + opCount nm l2 := by
  simp [opCount, List.filter_append]

theorem opCount_eq_zero (nm : String) (l : List Operation)
    (h : ∀ op ∈ l, op.operator ≠ nm) : opCount nm l = 0 := by
  induction l with
  | nil => rfl
  | cons o rest ih =>
    rw [opCount_cons]
    have h1 : ¬(o.operator == nm) := by
      simpa using h o (List.mem_cons_self o rest)
    simp [h1, ih fun op hop => h op (List.mem_cons_of_mem o hop)]

/-- Success-shape of the grid planner: valid steps plus an estimate within
the cap yield exactly the loop's operation list. -/
theorem build_eq_ok (F : FloatOps) (xName : String)
    (size angle width height text_w page_rotation : ℚ)
    (h1 : text_w + GRID_HORIZONTAL_GAP > MIN_GRID_STEP_SIZE)
    (h2 : size * GRID_VERTICAL_MULTIPLIER > MIN_GRID_STEP_SIZE)
    (h3 : gridVCount F size width height * gridUCount F width height text_w ≤
      MAX_ALLOWED_WATERMARKS) :
    build_watermark_grid_ops F xName size angle width height text_w page_rotation =
      .ok (gridLoop xName (F.cos (F.toRadians (angle + page_rotation)))
        (F.sin (F.toRadians (angle + page_rotation)))
        (width / 2 + CENTER_X_OFFSET) (height / 2 - CENTER_Y_OFFSET) width height
        (-gridDiag F width height - 200) (size * GRID_VERTICAL_MULTIPLIER)
        (-gridDiag F width height) (text_w + GRID_HORIZONTAL_GAP)
        (gridVCount F size width height) (gridUCount F width height text_w)) := by
  simp only [build_watermark_grid_ops]
  rw [if_neg (not_not_intro ⟨h1, h2⟩), if_neg (by exact not_lt.mpr h3)]

/-- Density-error shape of the grid planner. -/
theorem build_eq_tooMany (F : FloatOps) (xName : String)
    (size angle width height text_w page_rotation : ℚ)
    (h1 : text_w + GRID_HORIZONTAL_GAP > MIN_GRID_STEP_SIZE)
    (h2 : size * GRID_VERTICAL_MULTIPLIER > MIN_GRID_STEP_SIZE)
    (h3 : gridVCount F size width height * gridUCount F width height text_w >
      MAX_ALLOWED_WATERMARKS) :
    build_watermark_grid_ops F xName size angle width height text_w page_rotation =
      .error (.tooMany (gridVCount F size width height * gridUCount F width height text_w)) := by
  simp only [build_watermark_grid_ops]
  rw [if_neg (not_not_intro ⟨h1, h2⟩), if_pos h3]

/-- Sizing-error shape of the grid planner. -/
theorem build_eq_stepTooSmall (F : FloatOps) (xName : String)
    (size angle width height text_w page_rotation : ℚ)
    (h : ¬(text_w + GRID_HORIZONTAL_GAP > MIN_GRID_STEP_SIZE ∧
      size * GRID_VERTICAL_MULTIPLIER > MIN_GRID_STEP_SIZE)) :
    build_watermark_grid_ops F xName size angle width height text_w page_rotation =
      .error (.stepTooSmall (text_w + GRID_HORIZONTAL_GAP)
        (size * GRID_VERTICAL_MULTIPLIER)) := by
  simp only [build_watermark_grid_ops]
  rw [if_pos h]

/-- Each anchor is either culled or one full `q`, `cm`, `Do`, `Q` group. -/
theorem anchorOps_shape (xName : String) (c s cx cy width height u v : ℚ) :
    anchorOps xName c s cx cy width height u v = [] ∨
    anchorOps xName c s cx cy width height u v =
      [⟨"q", []⟩,
       ⟨"cm", [.num c, .num s, .num (-s), .num c, .num (cx + u * c - v * s),
               .num (cy + u * s + v * c)]⟩,
       ⟨"Do", [.name xName]⟩,
       ⟨"Q", []⟩] := by
  simp only [anchorOps]
  split
  · right; rfl
  · left; rfl

/-- Membership in an anchor group forces the cull condition and one of the
four group operations. -/
theorem anchorOps_mem (xName : String) (c s cx cy width height u v : ℚ)
    (op : Operation) (hop : op ∈ anchorOps xName c s cx cy width height u v) :
    (cx + u * c - v * s > -VISIBILITY_MARGIN ∧ cx + u * c - v * s < width + VISIBILITY_MARGIN ∧
     cy + u * s + v * c > -VISIBILITY_MARGIN ∧ cy + u * s + v * c < height + VISIBILITY_MARGIN) ∧
    (op = ⟨"q", []⟩ ∨
     op = ⟨"cm", [.num c, .num s, .num (-s), .num c, .num (cx + u * c - v * s),
                  .num (cy + u * s + v * c)]⟩ ∨
     op = ⟨"Do", [.name xName]⟩ ∨
     op = ⟨"Q", []⟩) := by
  simp only [anchorOps] at hop
  split at hop
  · rename_i hcond
    refine ⟨hcond, ?_⟩
    simpa using hop
  · simp at hop

/-- Membership in the grid loop comes from one anchor. -/
theorem gridLoop_mem (xName : String) (c s cx cy width height v_start step_outer u_start
    step_inner : ℚ) (v_count u_count : ℕ) (op : Operation)
    (hop : op ∈ gridLoop xName c s cx cy width height v_start step_outer u_start
      step_inner v_count u_count) :
    ∃ u v, op ∈ anchorOps xName c s cx cy width height u v := by
  simp only [gridLoop, List.mem_flatMap, List.mem_range] at hop
  obtain ⟨vi, _, ui, _, hmem⟩ := hop
  exact ⟨_, _, hmem⟩

/-- Each anchor contributes at most one `Do` operation. -/
theorem anchorOps_countDo_le (xName : String) (c s cx cy width height u v : ℚ) :
    opCount "Do" (anchorOps xName c s cx cy width height u v) ≤ 1 := by
  rcases anchorOps_shape xName c s cx cy width height u v with h | h <;>
    simp [h, opCount, List.filter]

/-- Counting over a flatMap, bounded elementwise. -/
theorem opCount_flatMap_le {α : Type} (nm : String) (L : List α)
    (g : α → List Operation) (k : ℕ) (hk : ∀ a ∈ L, opCount nm (g a) ≤ k) :
    opCount nm (L.flatMap g) ≤ L.length * k := by
  induction L with
  | nil => simp [opCount]
  | cons a rest ih =>
    rw [List.flatMap_cons, opCount_append, List.length_cons]
    have h1 := hk a (List.mem_cons_self a rest)
    have h2 := ih fun b hb => hk b (List.mem_cons_of_mem a hb)
    calc opCount nm (g a) + opCount nm (rest.flatMap g) ≤ k + rest.length * k := by omega
      _ = (rest.length + 1) * k := by ring

/-- The grid loop emits at most `(v_count+1) * (u_count+1)` draw calls. -/
theorem gridLoop_countDo_le (xName : String) (c s cx cy width height v_start step_outer
    u_start step_inner : ℚ) (v_count u_count : ℕ) :
    opCount "Do" (gridLoop xName c s cx cy width height v_start step_outer u_start
      step_inner v_count u_count) ≤ (v_count + 1) * (u_count + 1) := by
  have h := opCount_flatMap_le "Do" (List.range (v_count + 1))
    (fun vi => (List.range (u_count + 1)).flatMap fun ui =>
      anchorOps xName c s cx cy width height
        (u_start + (ui : ℚ) * step_inner) (v_start + (vi : ℚ) * step_outer))
    (u_count + 1) ?_
  · simpa [gridLoop, List.length_range] using h
  · intro vi _
    have h2 := opCount_flatMap_le "Do" (List.range (u_count + 1))
      (fun ui => anchorOps xName c s cx cy width height
        (u_start + (ui : ℚ) * step_inner) (v_start + (vi : ℚ) * step_outer)) 1 ?_
    · simpa [List.length_range] using h2
    · intro ui _
      exact anchorOps_countDo_le ..

/-! ## C6 — sizing validation -/

/-- C6: the grid planner returns the sizing error exactly when a derived
step fails to exceed `MIN_GRID_STEP_SIZE`; in particular a non-positive
`text_width + horizontal_gap` or `point_size * vertical_multiplier` is
rejected, and when both steps exceed the threshold the planner gets past
the validation (it either succeeds or fails the later density check). -/
theorem C6_sizing_validation (F : FloatOps) (xName : String)
    (size angle width height text_w page_rotation : ℚ) :
    (text_w + GRID_HORIZONTAL_GAP ≤ 0 ∨ size * GRID_VERTICAL_MULTIPLIER ≤ 0 →
      build_watermark_grid_ops F xName size angle width height text_w page_rotation =
        .error (.stepTooSmall (text_w + GRID_HORIZONTAL_GAP)
          (size * GRID_VERTICAL_MULTIPLIER))) ∧
    (build_watermark_grid_ops F xName size angle width height text_w page_rotation =
        .error (.stepTooSmall (text_w + GRID_HORIZONTAL_GAP)
          (size * GRID_VERTICAL_MULTIPLIER)) ↔
      (text_w + GRID_HORIZONTAL_GAP ≤ MIN_GRID_STEP_SIZE ∨
        size * GRID_VERTICAL_MULTIPLIER ≤ MIN_GRID_STEP_SIZE)) ∧
    (text_w + GRID_HORIZONTAL_GAP > MIN_GRID_STEP_SIZE →
      size * GRID_VERTICAL_MULTIPLIER > MIN_GRID_STEP_SIZE →
      (∃ ops, build_watermark_grid_ops F xName size angle width height text_w
          page_rotation = .ok ops) ∨
      (∃ n, build_watermark_grid_ops F xName size angle width height text_w
          page_rotation = .error (.tooMany n))) := by
  refine ⟨?_, ⟨?_, ?_⟩, ?_⟩
  · intro h
    apply build_eq_stepTooSmall
    rintro ⟨h1, h2⟩
    rcases h with h | h
    · exact absurd h1 (not_lt.mpr (h.trans (by norm_num [MIN_GRID_STEP_SIZE])))
    · exact absurd h2 (not_lt.mpr (h.trans (by norm_num [MIN_GRID_STEP_SIZE])))
  · intro h
    by_contra hc
    push_neg at hc
    rw [build_eq_ok F xName size angle width height text_w page_rotation hc.1 hc.2 ?hcap]
      at h
    · exact Except.noConfusion h
    case hcap =>
      by_contra hcap
      rw [build_eq_tooMany F xName size angle width height text_w page_rotation hc.1 hc.2
        (lt_of_not_ge hcap)] at h
      simp at h
  · intro h
    apply build_eq_stepTooSmall
    rintro ⟨h1, h2⟩
    rcases h with h | h
    · exact absurd h1 (not_lt.mpr h)
    · exact absurd h2 (not_lt.mpr h)
  · intro h1 h2
    rcases le_or_lt (gridVCount F size width height * gridUCount F width height text_w)
      MAX_ALLOWED_WATERMARKS with hcap | hcap
    · exact Or.inl ⟨_, build_eq_ok F xName size angle width height text_w page_rotation
        h1 h2 hcap⟩
    · exact Or.inr ⟨_, build_eq_tooMany F xName size angle width height text_w page_rotation
        h1 h2 hcap⟩

/-- Oracle used by concrete grid-planner inputs in witnesses. -/
def trivF : FloatOps := ⟨fun _ => 10, fun _ => 1, fun _ => 0, fun q => q⟩

attribute [local semireducible] Rat.mul Rat.add Rat.inv Rat.sub in
/-- Witness for C6: at point size 0 the outer step is 0 and the planner
returns the sizing error. -/
theorem C6_sizing_validation_witness :
    build_watermark_grid_ops trivF "Watermark1" 0 0 595 842 100 0 =
      .error (.stepTooSmall 130 0) := by
  rw [show (130 : ℚ) = 100 + GRID_HORIZONTAL_GAP by decide,
    show (0 : ℚ) = 0 * GRID_VERTICAL_MULTIPLIER by decide]
  exact (C6_sizing_validation trivF "Watermark1" 0 0 595 842 100 0).1 (Or.inr (by decide))

/-! ## C1 — density estimate and cap -/

/-- Oracle for the C1 counterexample: `sqrt` evaluates to 10000 — the exact
square root of the 6000 × 8000 page's squared diagonal `10^8` — so
`diag = 15000`; the angle oracles are irrelevant to the error path. -/
def c1F : FloatOps := ⟨fun _ => 10000, fun _ => 1, fun _ => 0, fun q => q⟩

attribute [local semireducible] Rat.mul Rat.add Rat.inv Rat.sub in
/-- C1 counterexample.  On a 6000 × 8000 page (`diag = 15000`), with text
width 0 (inner step 30) and point size `151/30` (outer step `151/5`), the
loop bounds are `v_count = u_count = 1000`: the number of `(vi, ui)` pairs
the loop iterates is `1001 * 1001 > 1_000_000`, yet the planner does
**not** return a density error, because the code estimates
`v_count * u_count = 1_000_000` — not `(v_count+1) * (u_count+1)` as the
claim states. -/
theorem C1_counterexample :
    gridVCount c1F (151 / 30) 6000 8000 = 1000 ∧
    gridUCount c1F 6000 8000 0 = 1000 ∧
    (1000 + 1) * (1000 + 1) > MAX_ALLOWED_WATERMARKS ∧
    (∀ e, build_watermark_grid_ops c1F "Watermark1" (151 / 30) 60 6000 8000 0 0 ≠
      .error e) := by
  refine ⟨by decide, by decide, by decide, ?_⟩
  intro e
  rw [build_eq_ok c1F "Watermark1" (151 / 30) 60 6000 8000 0 0 (by decide) (by decide)
    (by decide)]
  simp

/-- C1 as amended: past step validation the planner computes the estimate
`v_count * u_count`, rejects with the density error exactly when that
estimate exceeds the cap, and on success emits at most
`(v_count+1) * (u_count+1)` draw-resource instances (a bound that can
exceed the cap, since the estimate undercounts the loop by `v_count +
u_count + 1`). -/
theorem C1_amended_estimate_cap (F : FloatOps) (xName : String)
    (size angle width height text_w page_rotation : ℚ)
    (h1 : text_w + GRID_HORIZONTAL_GAP > MIN_GRID_STEP_SIZE)
    (h2 : size * GRID_VERTICAL_MULTIPLIER > MIN_GRID_STEP_SIZE) :
    (gridVCount F size width height * gridUCount F width height text_w >
        MAX_ALLOWED_WATERMARKS →
      build_watermark_grid_ops F xName size angle width height text_w page_rotation =
        .error (.tooMany (gridVCount F size width height *
          gridUCount F width height text_w))) ∧
    (gridVCount F size width height * gridUCount F width height text_w ≤
        MAX_ALLOWED_WATERMARKS →
      ∃ ops, build_watermark_grid_ops F xName size angle width height text_w
          page_rotation = .ok ops ∧
        opCount "Do" ops ≤
          (gridVCount F size width height + 1) * (gridUCount F width height text_w + 1)) := by
  constructor
  · intro hcap
    exact build_eq_tooMany F xName size angle width height text_w page_rotation h1 h2 hcap
  · intro hcap
    refine ⟨_, build_eq_ok F xName size angle width height text_w page_rotation h1 h2 hcap,
      gridLoop_countDo_le ..⟩

attribute [local semireducible] Rat.mul Rat.add Rat.inv Rat.sub in
/-- Witness for C1's amended theorem at a small concrete grid
(`v_count = 37`, `u_count = 1`). -/
theorem C1_amended_estimate_cap_witness :
    ∃ ops, build_watermark_grid_ops trivF "Watermark1" 1 0 300 400 0 0 = .ok ops ∧
      opCount "Do" ops ≤ (gridVCount trivF 1 300 400 + 1) * (gridUCount trivF 300 400 0 + 1) :=
  (C1_amended_estimate_cap trivF "Watermark1" 1 0 300 400 0 0
    (by decide) (by decide)).2 (by decide)

/-! ## C5 — visibility culling -/

/-- C5: every `cm` operation the planner emits carries translation entries
`(x, y)` inside the page rectangle expanded by the visibility margin, and an
anchor whose transformed point falls outside that region contributes no
operations at all. -/
theorem C5_cull_bounds (F : FloatOps) (xName : String)
    (size angle width height text_w page_rotation : ℚ) :
    (∀ op ∈ resultOps (build_watermark_grid_ops F xName size angle width height text_w
        page_rotation),
      op.operator = "cm" →
      ∃ x y, op.operands.drop 4 = [.num x, .num y] ∧
        -VISIBILITY_MARGIN ≤ x ∧ x ≤ width + VISIBILITY_MARGIN ∧
        -VISIBILITY_MARGIN ≤ y ∧ y ≤ height + VISIBILITY_MARGIN) ∧
    (∀ c s cx cy u v,
      (cx + u * c - v * s < -VISIBILITY_MARGIN ∨
       cx + u * c - v * s > width + VISIBILITY_MARGIN ∨
       cy + u * s + v * c < -VISIBILITY_MARGIN ∨
       cy + u * s + v * c > height + VISIBILITY_MARGIN) →
      anchorOps xName c s cx cy width height u v = []) := by
  constructor
  · intro op hop hcm
    rcases hbuild : build_watermark_grid_ops F xName size angle width height text_w
        page_rotation with e | ops
    · rw [hbuild] at hop; simp [resultOps] at hop
    · rw [hbuild] at hop
      simp only [resultOps] at hop
      have hshape : ∃ cc ss cx cy vs so us si vc uc, ops = gridLoop xName cc ss cx cy
          width height vs so us si vc uc := by
        simp only [build_watermark_grid_ops] at hbuild
        split at hbuild
        · exact Except.noConfusion hbuild
        · split at hbuild
          · exact Except.noConfusion hbuild
          · exact ⟨_, _, _, _, _, _, _, _, _, _, (Except.ok.injEq .. ).mp hbuild |>.symm⟩
      obtain ⟨cc, ss, cx, cy, vs, so, us, si, vc, uc, rfl⟩ := hshape
      obtain ⟨u, v, hmem⟩ := gridLoop_mem xName cc ss cx cy width height vs so us si vc uc
        op hop
      obtain ⟨hbounds, hcases⟩ := anchorOps_mem xName cc ss cx cy width height u v op hmem
      rcases hcases with rfl | rfl | rfl | rfl
      · simp at hcm
      · exact ⟨_, _, rfl, le_of_lt hbounds.1, le_of_lt hbounds.2.1, le_of_lt hbounds.2.2.1,
          le_of_lt hbounds.2.2.2⟩
      · simp at hcm
      · simp at hcm
  · intro c s cx cy u v h
    simp only [anchorOps]
    rw [if_neg]
    rintro ⟨h1, h2, h3, h4⟩
    rcases h with h | h | h | h
    · exact absurd h1 (not_lt.mpr h.le)
    · exact absurd h2 (not_lt.mpr h.le)
    · exact absurd h3 (not_lt.mpr h.le)
    · exact absurd h4 (not_lt.mpr h.le)

attribute [local semireducible] Rat.mul Rat.add Rat.inv Rat.sub in
/-- Witness for C5: a concrete anchor whose transformed point lies right of
the expanded page rectangle is culled. -/
theorem C5_cull_bounds_witness :
    anchorOps "Watermark1" 1 0 150 200 300 400 1000 0 = [] :=
  (C5_cull_bounds trivF "Watermark1" 26 60 300 400 0 0).2 1 0 150 200 1000 0
    (Or.inr (Or.inl (by decide)))

/-! ## C3 — additive effective angle -/

/-- C3 as amended: the library's grid planner computes every transform from
`cos`/`sin` of `to_radians(angle + page_rotation)` — the first four entries
of every emitted `cm` are exactly those of the additive effective angle —
while the `build_watermark_grid_ops_xobject` variant of src/src/main.rs
binds its `_page_rotation` parameter without using it, so its output is
identical for every page rotation. -/
theorem C3_amended_effective_angle :
    (∀ (F : FloatOps) (xName : String) (size angle width height text_w page_rotation : ℚ)
      (op : Operation),
      op ∈ resultOps (build_watermark_grid_ops F xName size angle width height text_w
        page_rotation) →
      op.operator = "cm" →
      op.operands.take 4 =
        [.num (F.cos (F.toRadians (angle + page_rotation))),
         .num (F.sin (F.toRadians (angle + page_rotation))),
         .num (-(F.sin (F.toRadians (angle + page_rotation)))),
         .num (F.cos (F.toRadians (angle + page_rotation)))]) ∧
    (∀ (F : FloatOps) (fuelV fuelU : ℕ) (xName : String)
      (size angle_deg width height page_rotation : ℚ) (font : ScaledFont)
      (text : List Char),
      main_build_watermark_grid_ops F fuelV fuelU xName size angle_deg width height
        page_rotation font text =
      main_build_watermark_grid_ops F fuelV fuelU xName size angle_deg width height
        0 font text) := by
  constructor
  · intro F xName size angle width height text_w page_rotation op hop hcm
    rcases hbuild : build_watermark_grid_ops F xName size angle width height text_w
        page_rotation with e | ops
    · rw [hbuild] at hop; simp [resultOps] at hop
    · rw [hbuild] at hop
      simp only [resultOps] at hop
      simp only [build_watermark_grid_ops] at hbuild
      split at hbuild
      · exact Except.noConfusion hbuild
      · split at hbuild
        · exact Except.noConfusion hbuild
        · replace hbuild := (Except.ok.injEq .. ).mp hbuild
          subst hbuild
          obtain ⟨u, v, hmem⟩ := gridLoop_mem _ _ _ _ _ _ _ _ _ _ _ _ _ op hop
          obtain ⟨_, hcases⟩ := anchorOps_mem _ _ _ _ _ _ _ u v op hmem
          rcases hcases with rfl | rfl | rfl | rfl
          · simp at hcm
          · rfl
          · simp at hcm
          · simp at hcm
  · intro F fuelV fuelU xName size angle_deg width height page_rotation font text
    rfl

/-- Oracle for the C3 counterexample: `sqrt` evaluates to 20, so the main
variant's `diag` is 50 and its loops take a handful of iterations. -/
def c3F : FloatOps := ⟨fun _ => 20, fun _ => 1, fun _ => 0, fun q => q⟩


/-- A font whose every character has no outline and zero advance. -/
def emptyFont : ScaledFont := ⟨fun _ => ⟨none, 0⟩, 1, 1⟩

/-- Witness for C3's amended theorem: the main.rs planner's output at page
rotation 45 equals its output at page rotation 0. -/
theorem C3_amended_effective_angle_witness :
    main_build_watermark_grid_ops c3F 20 10 "Watermark1" 26 60 300 400 45 emptyFont [] =
      main_build_watermark_grid_ops c3F 20 10 "Watermark1" 26 60 300 400 0 emptyFont [] :=
  C3_amended_effective_angle.2 c3F 20 10 "Watermark1" 26 60 300 400 45 emptyFont []

attribute [local semireducible] Rat.mul Rat.add Rat.inv Rat.sub in
/-- C3 counterexample.  The main.rs grid planner invoked with page rotation
90 produces the very same operations — including `cm` transforms, of which
there are eight — as with page rotation 0: its cos/sin entries do not
differ from those of the base angle alone, contradicting the claim for
that planner. -/
theorem C3_counterexample :
    main_build_watermark_grid_ops c3F 20 10 "Watermark1" 26 60 300 400 90 emptyFont [] =
      main_build_watermark_grid_ops c3F 20 10 "Watermark1" 26 60 300 400 0 emptyFont [] ∧
    opCount "cm" (main_build_watermark_grid_ops c3F 20 10 "Watermark1" 26 60 300 400 90
      emptyFont []) = 8 := by
  exact ⟨rfl, by decide⟩

/-! ## C2 — page size fallback -/

/-- C2 as amended: the default page size `(595, 842)` is used whenever the
page has no dictionary (or the lookup fails) or no `MediaBox` entry that is
an array of length at least 4; but an array of length at least 4 always
produces a size, with every non-numeric entry coerced to 0 by
`obj_to_f32` — such malformed entries do **not** fall back to the default. -/
theorem C2_amended_page_size_fallback :
    (∀ (doc : PDoc) (pid : ObjId),
      (∀ d, (doc pid).bind objDict = some d →
        ∀ arr, dictGet "MediaBox" d = some (.array arr) → arr.length < 4) →
      pageSizeOrDefault doc pid = (595, 842)) ∧
    (∀ (doc : PDoc) (pid : ObjId) (d : List (String × PObj)) (arr : List PObj),
      (doc pid).bind objDict = some d →
      dictGet "MediaBox" d = some (.array arr) →
      4 ≤ arr.length →
      pageSizeOrDefault doc pid =
        (obj_to_f32 (arr.getD 2 .null) - obj_to_f32 (arr.getD 0 .null),
         obj_to_f32 (arr.getD 3 .null) - obj_to_f32 (arr.getD 1 .null))) := by
  constructor
  · intro doc pid h
    have hnone : page_size doc pid = none := by
      unfold page_size
      cases hobj : doc pid with
      | none => rfl
      | some obj =>
        cases hdict : objDict obj with
        | none => simp [hdict]
        | some d =>
          simp only [hdict]
          cases hmb : dictGet "MediaBox" d with
          | none => rfl
          | some mb =>
            cases mb with
            | array arr =>
              have hlen := h d (by rw [hobj]; simpa [Option.bind] using hdict) arr hmb
              simp [hlen, Nat.not_le_of_lt hlen]
            | null => rfl
            | integer n => rfl
            | real q => rfl
            | name s => rfl
            | reference id => rfl
            | dict entries => rfl
            | stream entries => rfl
    simp [pageSizeOrDefault, hnone]
  · intro doc pid d arr hd hmb hlen
    obtain ⟨obj, hobj, hdict⟩ : ∃ obj, doc pid = some obj ∧ objDict obj = some d := by
      cases hobj : doc pid with
      | none => rw [hobj] at hd; simp [Option.bind] at hd
      | some obj => rw [hobj] at hd; exact ⟨obj, rfl, by simpa [Option.bind] using hd⟩
    have : page_size doc pid =
        some (obj_to_f32 (arr.getD 2 .null) - obj_to_f32 (arr.getD 0 .null),
              obj_to_f32 (arr.getD 3 .null) - obj_to_f32 (arr.getD 1 .null)) := by
      unfold page_size
      rw [hobj]
      simp only [hdict, hmb]
      rw [if_pos hlen]
    simp [pageSizeOrDefault, this]

/-- A one-page document whose `MediaBox` is an array of four nulls. -/
def c2doc : PDoc := fun id =>
  if id = (1, 0) then
    some (.dict [("MediaBox", .array [.null, .null, .null, .null])])
  else none

attribute [local semireducible] Rat.mul Rat.add Rat.inv Rat.sub in
/-- C2 counterexample.  A `MediaBox` array of four non-numeric entries is
malformed, yet the code derives `(0, 0)` from it (each entry coerced to 0)
instead of falling back to the standard default `(595, 842)`. -/
theorem C2_counterexample :
    page_size c2doc (1, 0) = some (0, 0) ∧
    pageSizeOrDefault c2doc (1, 0) = (0, 0) ∧
    pageSizeOrDefault c2doc (1, 0) ≠ (595, 842) := by
  refine ⟨by decide, by decide, by decide⟩

attribute [local semireducible] Rat.mul Rat.add Rat.inv Rat.sub in
/-- Witness for C2's amended theorem: a page without any `MediaBox` entry
falls back to the default size. -/
theorem C2_amended_page_size_fallback_witness :
    pageSizeOrDefault (fun id => if id = (1, 0) then some (.dict []) else none) (1, 0) =
      (595, 842) :=
  C2_amended_page_size_fallback.1 _ (1, 0) (by
    intro d hd arr harr
    simp only [if_pos rfl, Option.bind, objDict] at hd
    cases hd
    simp [dictGet] at harr)

/-! ## C4 — rotation lookup -/

/-- Outside the chain (node index at or past the end) both the walk and the
spec scan give 0. -/
theorem chain_walk_out (rots : List (Option ℤ)) (n : ℕ) (hlen : rots.length ≤ n) :
    get_page_rotation_go (chainDoc rots) (MAX_PARENT_DEPTH + 1 - n) (some (n, 0)) =
      firstRotWithin (rots.drop n) n := by
  have hdrop : rots.drop n = [] := List.drop_eq_nil_of_le hlen
  have hdoc : chainDoc rots (n, 0) = none := by
    simp only [chainDoc]
    rw [if_neg]
    rintro ⟨-, h2⟩
    omega
  rw [hdrop]
  cases hf : MAX_PARENT_DEPTH + 1 - n with
  | zero => simp [get_page_rotation_go, firstRotWithin]
  | succ m => simp [get_page_rotation_go, hdoc, firstRotWithin]

/-- The depth-bounded walk on a linear chain document computes exactly the
spec-side scan `firstRotWithin`. -/
theorem chain_walk (rots : List (Option ℤ)) :
    ∀ k n, rots.length - n ≤ k →
      get_page_rotation_go (chainDoc rots) (MAX_PARENT_DEPTH + 1 - n) (some (n, 0)) =
        firstRotWithin (rots.drop n) n := by
  intro k
  induction k with
  | zero =>
    intro n hn
    exact chain_walk_out rots n (by omega)
  | succ k ih =>
    intro n hn
    by_cases hlen : rots.length ≤ n
    · exact chain_walk_out rots n hlen
    · push_neg at hlen
      have hdrop : rots.drop n = rots.getD n none :: rots.drop (n + 1) := by
        rw [List.drop_eq_getElem_cons hlen]
        congr 1
        rw [List.getD_eq_getElem?_getD, List.getElem?_eq_getElem hlen]
        rfl
      by_cases hd : MAX_PARENT_DEPTH < n
      · have hf : MAX_PARENT_DEPTH + 1 - n = 0 := by omega
        rw [hf, hdrop]
        simp [get_page_rotation_go, firstRotWithin, hd]
      · have hf : MAX_PARENT_DEPTH + 1 - n = (MAX_PARENT_DEPTH + 1 - (n + 1)) + 1 := by
          omega
        rw [hf, hdrop]
        have hget : rots[n] = rots.getD n none := by
          rw [List.getD_eq_getElem?_getD, List.getElem?_eq_getElem hlen]
          rfl
        cases hr : rots.getD n none with
        | some r =>
          have hr2 : rots[n] = some r := hget.trans hr
          have hdoc : chainDoc rots (n, 0) = some (.dict (("Rotate", PObj.integer r) ::
              (if n + 1 < rots.length then [("Parent", PObj.reference (n + 1, 0))]
               else []))) := by
            simp [chainDoc, hlen, hr2]
          simp only [get_page_rotation_go, hdoc, objDict]
          rw [show dictGet "Rotate" (("Rotate", PObj.integer r) ::
              (if n + 1 < rots.length then [("Parent", PObj.reference (n + 1, 0))]
               else [])) = some (.integer r) by simp [dictGet]]
          simp [rotateResolve, firstRotWithin, hd]
        | none =>
          have hr2 : rots[n] = none := hget.trans hr
          by_cases hnext : n + 1 < rots.length
          · have hdoc : chainDoc rots (n, 0) =
                some (.dict [("Parent", PObj.reference (n + 1, 0))]) := by
              simp [chainDoc, hlen, hr2, hnext]
            simp only [get_page_rotation_go, hdoc, objDict]
            rw [show dictGet "Rotate" [("Parent", PObj.reference (n + 1, 0))] = none by
              simp only [dictGet]; rw [if_neg (by decide)]]
            simp only [Option.none_bind]
            rw [show parentNext [("Parent", PObj.reference (n + 1, 0))] = some (n + 1, 0) by
              simp [parentNext, dictGet]]
            rw [ih (n + 1) (by omega)]
            simp [firstRotWithin, hd]
          · have hdoc : chainDoc rots (n, 0) = some (.dict []) := by
              simp [chainDoc, hlen, hr2, hnext]
            simp only [get_page_rotation_go, hdoc, objDict]
            rw [show dictGet "Rotate" ([] : List (String × PObj)) = none from rfl]
            simp only [Option.none_bind]
            rw [show parentNext ([] : List (String × PObj)) = none from rfl]
            have hdrop2 : rots.drop (n + 1) = [] := List.drop_eq_nil_of_le (by omega)
            simp [get_page_rotation_go, firstRotWithin, hd, hdrop2]

/-- The spec scan gives 0 when every entry within the depth bound is absent. -/
theorem firstRotWithin_zero (rots : List (Option ℤ)) :
    ∀ depth, (∀ i, i + depth ≤ MAX_PARENT_DEPTH → rots.getD i none = none) →
      firstRotWithin rots depth = 0 := by
  induction rots with
  | nil => intro depth _; rfl
  | cons o rest ih =>
    intro depth h
    simp only [firstRotWithin]
    by_cases hd : MAX_PARENT_DEPTH < depth
    · rw [if_pos hd]
    · rw [if_neg hd]
      have h0 : o = none := by simpa using h 0 (by omega)
      rw [h0]
      exact ih (depth + 1) fun i hi => by simpa using h (i + 1) (by omega)

/-- The main.rs walk never finishes on the one-node cycle, whatever the
fuel. -/
theorem main_walk_cyc : ∀ fuel, main_get_page_rotation_go cycDoc fuel (some (1, 0)) = none := by
  intro fuel
  induction fuel with
  | zero => rfl
  | succ n ih => exact ih

/-- A page whose `Rotate` is an indirect reference to the integer 270. -/
def refRotDoc : PDoc := fun id =>
  if id = (1, 0) then some (.dict [("Rotate", PObj.reference (5, 0))])
  else if id = (5, 0) then some (.integer 270) else none

/-- C4 as amended: the library's lookup walks the linear ancestor chain and
equals the spec scan (first rotation found within depth `MAX_PARENT_DEPTH`,
0 past the bound or when absent); it resolves an indirect reference to an
integer; it returns 0, terminating, on a cyclic chain.  The main.rs variant
of the lookup has no depth bound: on the cyclic chain it is still running
after any number of iterations. -/
theorem C4_amended_rotation_lookup :
    (∀ rots, get_page_rotation (chainDoc rots) (0, 0) = firstRotWithin rots 0) ∧
    get_page_rotation refRotDoc (1, 0) = 270 ∧
    get_page_rotation cycDoc (1, 0) = 0 ∧
    (∀ fuel, main_get_page_rotation_go cycDoc fuel (some (1, 0)) = none) ∧
    (∀ rots, (∀ i, i ≤ MAX_PARENT_DEPTH → rots.getD i none = none) →
      get_page_rotation (chainDoc rots) (0, 0) = 0) := by
  have hwalk : ∀ rots : List (Option ℤ),
      get_page_rotation (chainDoc rots) (0, 0) = firstRotWithin rots 0 := by
    intro rots
    have h := chain_walk rots rots.length 0 (by omega)
    simpa [get_page_rotation] using h
  refine ⟨hwalk, by decide, by decide, main_walk_cyc, ?_⟩
  intro rots h
  rw [hwalk rots]
  exact firstRotWithin_zero rots 0 fun i hi => h i (by omega)

/-- C4 counterexample.  On the cyclic one-node document the main.rs lookup
has not finished after 50 iterations — impossible for a walk bounded to
depth 10 — while the library's bounded lookup returns 0. -/
theorem C4_counterexample :
    main_get_page_rotation_go cycDoc 50 (some (1, 0)) = none ∧
    get_page_rotation cycDoc (1, 0) = 0 :=
  ⟨by decide, by decide⟩

/-- Witness for C4's amended theorem: a page with no direct rotation whose
parent declares rotation 90 resolves to 90. -/
theorem C4_amended_rotation_lookup_witness :
    get_page_rotation (chainDoc [none, some 90]) (0, 0) = 90 := by
  rw [C4_amended_rotation_lookup.1 [none, some 90]]
  decide

/-! ## C7 — width measurement -/

theorem foldl_add_eq (adv : Char → ℚ) :
    ∀ (l : List Char) (x : ℚ), l.foldl (fun w ch => w + adv ch) x = x + (l.map adv).sum := by
  intro l
  induction l with
  | nil => intro x; simp
  | cons ch rest ih => intro x; simp [ih, add_assoc]

theorem textOpsCursor_snd (f : ScaledFont) (ys : ℚ) :
    ∀ (text : List Char) (xc : ℚ),
      (textOpsCursor f ys text xc).2 = xc + (text.map fun ch => (f.glyph ch).hAdvance).sum := by
  intro text
  induction text with
  | nil => intro xc; simp [textOpsCursor]
  | cons ch rest ih => intro xc; simp [textOpsCursor, ih, add_assoc]

/-- C7: `measure_text_width` is exactly the sum of the per-character scaled
advances; the Vectorizer's final cursor exceeds its origin by exactly that
width; and the width depends only on the advances — two fonts with the same
advances (outlines arbitrary) measure identically. -/
theorem C7_measure_consistency (f : ScaledFont) (text : List Char) (x_start y_start : ℚ) :
    measure_text_width f text = (text.map fun ch => (f.glyph ch).hAdvance).sum ∧
    (textOpsCursor f y_start text x_start).2 = x_start + measure_text_width f text ∧
    (∀ g : ScaledFont, (∀ ch, (g.glyph ch).hAdvance = (f.glyph ch).hAdvance) →
      measure_text_width g text = measure_text_width f text) := by
  have h1 : measure_text_width f text = (text.map fun ch => (f.glyph ch).hAdvance).sum := by
    rw [measure_text_width, foldl_add_eq, zero_add]
  refine ⟨h1, ?_, ?_⟩
  · rw [textOpsCursor_snd, h1]
  · intro g hg
    have h2 : measure_text_width g text = (text.map fun ch => (g.glyph ch).hAdvance).sum := by
      rw [measure_text_width, foldl_add_eq, zero_add]
    rw [h1, h2]
    congr 1
    exact List.map_congr_left fun ch _ => hg ch

/-- A font for the C7 witness: no outlines, advances 7 and 5. -/
def w7font : ScaledFont := ⟨fun ch => if ch = 'a' then ⟨none, 7⟩ else ⟨none, 5⟩, 1, 1⟩

/-- Witness for C7 at a concrete font and text. -/
theorem C7_measure_consistency_witness :
    (textOpsCursor w7font 0 ['a', 'b'] 3).2 = 3 + measure_text_width w7font ['a', 'b'] :=
  (C7_measure_consistency w7font ['a', 'b'] 3 0).2.1

/-! ## C8 — contours, close-paths, move-tos and the single fill -/

theorem segDrawOp_operator (xc ys hf vf : ℚ) (cv : OutlineCurve) :
    (segDrawOp xc ys hf vf cv).operator = "l" ∨ (segDrawOp xc ys hf vf cv).operator = "c" := by
  cases cv <;> simp [segDrawOp]

theorem segDrawOp_ne (xc ys hf vf : ℚ) (cv : OutlineCurve) (nm : String)
    (h1 : nm ≠ "l") (h2 : nm ≠ "c") :
    ((segDrawOp xc ys hf vf cv).operator == nm) = false := by
  rcases segDrawOp_operator xc ys hf vf cv with h | h <;>
    simp [h, beq_eq_false_iff_ne] <;> [exact fun he => h1 he.symm; exact fun he => h2 he.symm]

theorem opCount_h_hm (ws : List Operand) :
    opCount "h" [⟨"h", []⟩, ⟨"m", ws⟩] = 1 := rfl

theorem opCount_m_hm (ws : List Operand) :
    opCount "m" [⟨"h", []⟩, ⟨"m", ws⟩] = 1 := rfl

theorem opCount_h_m (ws : List Operand) : opCount "h" [⟨"m", ws⟩] = 0 := rfl

theorem opCount_m_m (ws : List Operand) : opCount "m" [⟨"m", ws⟩] = 1 := rfl

theorem opCount_m_outline (xc ys hf vf : ℚ) :
    ∀ (cs : List OutlineCurve) (lp : Option Pt),
      opCount "m" (outlineOps xc ys hf vf cs lp) = contourCountAux cs lp := by
  intro cs
  induction cs with
  | nil => intro lp; rfl
  | cons cv rest ih =>
    intro lp
    simp only [outlineOps, contourCountAux]
    rw [opCount_append, opCount_cons, segDrawOp_ne xc ys hf vf cv "m" (by decide) (by decide)]
    cases hni : isNewContour lp (segP0 cv) with
    | false => simp [opCount_nil, ih]
    | true =>
      cases lp with
      | none => simp [opCount_m_m, ih]
      | some p => simp [opCount_m_hm, ih]

theorem opCount_h_outline_some (xc ys hf vf : ℚ) :
    ∀ (cs : List OutlineCurve) (p : Pt),
      opCount "h" (outlineOps xc ys hf vf cs (some p)) = contourCountAux cs (some p) := by
  intro cs
  induction cs with
  | nil => intro p; rfl
  | cons cv rest ih =>
    intro p
    simp only [outlineOps, contourCountAux]
    rw [opCount_append, opCount_cons, segDrawOp_ne xc ys hf vf cv "h" (by decide) (by decide)]
    cases hni : isNewContour (some p) (segP0 cv) with
    | false => simp [opCount_nil, ih]
    | true => simp [opCount_h_hm, ih]

theorem lastPointAfter_some : ∀ (cs : List OutlineCurve) (p : Pt),
    (lastPointAfter cs (some p)).isSome = true := by
  intro cs
  induction cs with
  | nil => intro p; rfl
  | cons cv rest ih => intro p; simp only [lastPointAfter]; exact ih (segEnd cv)

theorem opCount_h_charOps (f : ScaledFont) (ys : ℚ) (xc : ℚ) (ch : Char) :
    opCount "h" (charOps f ys xc ch) = glyphContourCount f ch := by
  simp only [charOps, glyphContourCount]
  cases houtline : (f.glyph ch).outline with
  | none => rfl
  | some cs =>
    cases cs with
    | nil => rfl
    | cons cv rest =>
      rw [opCount_append]
      have hlast : (lastPointAfter (cv :: rest) none).isSome = true := by
        simp only [lastPointAfter]
        exact lastPointAfter_some rest (segEnd cv)
      rw [if_pos hlast]
      simp only [outlineOps, contourCountAux]
      rw [opCount_append, opCount_cons,
        segDrawOp_ne xc ys f.hFactor f.vFactor cv "h" (by decide) (by decide)]
      have hni : isNewContour none (segP0 cv) = true := rfl
      rw [if_pos hni, if_pos hni]
      have e2 : opCount "h" [(⟨"h", []⟩ : Operation)] = 1 := rfl
      simp [opCount_h_m, e2, opCount_h_outline_some]
      omega

theorem opCount_m_charOps (f : ScaledFont) (ys : ℚ) (xc : ℚ) (ch : Char) :
    opCount "m" (charOps f ys xc ch) = glyphContourCount f ch := by
  simp only [charOps, glyphContourCount]
  cases houtline : (f.glyph ch).outline with
  | none => rfl
  | some cs =>
    rw [opCount_append]
    have htrail : opCount "m"
        (if (lastPointAfter cs none).isSome then [(⟨"h", []⟩ : Operation)] else []) = 0 := by
      split <;> rfl
    rw [htrail, opCount_m_outline]
    simp

theorem opCount_textOps (f : ScaledFont) (ys : ℚ) (nm : String)
    (hchar : ∀ xc ch, opCount nm (charOps f ys xc ch) = glyphContourCount f ch) :
    ∀ (text : List Char) (xc : ℚ),
      opCount nm (textOpsCursor f ys text xc).1 = textContourCount f text := by
  intro text
  induction text with
  | nil => intro xc; rfl
  | cons ch rest ih =>
    intro xc
    simp only [textOpsCursor, textContourCount, List.map_cons, List.sum_cons]
    rw [opCount_append, hchar, ih]
    simp [textContourCount]

theorem outlineOps_operators (xc ys hf vf : ℚ) :
    ∀ (cs : List OutlineCurve) (lp : Option Pt) (op : Operation),
      op ∈ outlineOps xc ys hf vf cs lp →
      op.operator = "h" ∨ op.operator = "m" ∨ op.operator = "l" ∨ op.operator = "c" := by
  intro cs
  induction cs with
  | nil => intro lp op hop; simp [outlineOps] at hop
  | cons cv rest ih =>
    intro lp op hop
    simp only [outlineOps, List.mem_append, List.mem_cons] at hop
    rcases hop with hop | hop | hop
    · split at hop
      · rcases List.mem_append.mp hop with hop | hop
        · split at hop
          · simp at hop
            subst hop
            left; rfl
          · simp at hop
        · simp at hop
          subst hop
          right; left; rfl
      · simp at hop
    · subst hop
      rcases segDrawOp_operator xc ys hf vf cv with h | h
      · right; right; left; exact h
      · right; right; right; exact h
    · exact ih _ op hop

theorem charOps_operators (f : ScaledFont) (ys xc : ℚ) (ch : Char) (op : Operation)
    (hop : op ∈ charOps f ys xc ch) :
    op.operator = "h" ∨ op.operator = "m" ∨ op.operator = "l" ∨ op.operator = "c" := by
  simp only [charOps] at hop
  cases houtline : (f.glyph ch).outline with
  | none => rw [houtline] at hop; simp at hop
  | some cs =>
    rw [houtline] at hop
    rcases List.mem_append.mp hop with hop | hop
    · exact outlineOps_operators xc ys f.hFactor f.vFactor cs none op hop
    · split at hop
      · simp at hop
        subst hop
        left; rfl
      · simp at hop

theorem textOps_operators (f : ScaledFont) (ys : ℚ) :
    ∀ (text : List Char) (xc : ℚ) (op : Operation),
      op ∈ (textOpsCursor f ys text xc).1 →
      op.operator = "h" ∨ op.operator = "m" ∨ op.operator = "l" ∨ op.operator = "c" := by
  intro text
  induction text with
  | nil => intro xc op hop; simp [textOpsCursor] at hop
  | cons ch rest ih =>
    intro xc op hop
    simp only [textOpsCursor] at hop
    rcases List.mem_append.mp hop with hop | hop
    · exact charOps_operators f ys xc ch op hop
    · exact ih _ op hop

theorem opCount_textOps_zero (f : ScaledFont) (ys : ℚ) (text : List Char) (xc : ℚ)
    (nm : String) (h1 : nm ≠ "h") (h2 : nm ≠ "m") (h3 : nm ≠ "l") (h4 : nm ≠ "c") :
    opCount nm (textOpsCursor f ys text xc).1 = 0 := by
  apply opCount_eq_zero
  intro op hop
  rcases textOps_operators f ys text xc op hop with h | h | h | h <;> rw [h] <;>
    [exact fun he => h1 he.symm; exact fun he => h2 he.symm; exact fun he => h3 he.symm;
     exact fun he => h4 he.symm]

theorem getLast_two (l : List Operation) (a b : Operation) :
    (l ++ [a, b]).getLast? = some b ∧ (l ++ [a, b]).dropLast.getLast? = some a := by
  constructor
  · rw [show l ++ [a, b] = (l ++ [a]) ++ [b] by simp, List.getLast?_concat]
  · rw [show l ++ [a, b] = (l ++ [a]) ++ [b] by simp, List.dropLast_concat,
      List.getLast?_concat]

/-- C8: the Vectorizer's output contains exactly one close-path and one
move-to per contour of the input text's glyph outlines, and exactly one
paint-fill, which is the second-to-last operation, followed only by the
restore-state. -/
theorem C8_contour_ops (f : ScaledFont) (text : List Char) (x_start y_start : ℚ) :
    opCount "h" (text_to_pdf_paths f text x_start y_start) = textContourCount f text ∧
    opCount "m" (text_to_pdf_paths f text x_start y_start) = textContourCount f text ∧
    opCount "f" (text_to_pdf_paths f text x_start y_start) = 1 ∧
    (text_to_pdf_paths f text x_start y_start).getLast? = some ⟨"Q", []⟩ ∧
    (text_to_pdf_paths f text x_start y_start).dropLast.getLast? = some ⟨"f", []⟩ := by
  have hform : text_to_pdf_paths f text x_start y_start =
      ([⟨"q", []⟩, ⟨"gs", [.name "GS1"]⟩,
        ⟨"rg", [.num (1 / 10), .num (1 / 10), .num (1 / 10)]⟩] ++
       (textOpsCursor f y_start text x_start).1) ++ [⟨"f", []⟩, ⟨"Q", []⟩] := by
    simp [text_to_pdf_paths]
  have ePreH : opCount "h" ([⟨"q", []⟩, ⟨"gs", [.name "GS1"]⟩,
      ⟨"rg", [.num (1 / 10), .num (1 / 10), .num (1 / 10)]⟩] : List Operation) = 0 := rfl
  have ePreM : opCount "m" ([⟨"q", []⟩, ⟨"gs", [.name "GS1"]⟩,
      ⟨"rg", [.num (1 / 10), .num (1 / 10), .num (1 / 10)]⟩] : List Operation) = 0 := rfl
  have ePreF : opCount "f" ([⟨"q", []⟩, ⟨"gs", [.name "GS1"]⟩,
      ⟨"rg", [.num (1 / 10), .num (1 / 10), .num (1 / 10)]⟩] : List Operation) = 0 := rfl
  have eTailH : opCount "h" ([⟨"f", []⟩, ⟨"Q", []⟩] : List Operation) = 0 := rfl
  have eTailM : opCount "m" ([⟨"f", []⟩, ⟨"Q", []⟩] : List Operation) = 0 := rfl
  have eTailF : opCount "f" ([⟨"f", []⟩, ⟨"Q", []⟩] : List Operation) = 1 := rfl
  refine ⟨?_, ?_, ?_, ?_, ?_⟩
  · rw [hform, opCount_append, opCount_append]
    rw [opCount_textOps f y_start "h" (opCount_h_charOps f y_start) text x_start]
    omega
  · rw [hform, opCount_append, opCount_append]
    rw [opCount_textOps f y_start "m" (opCount_m_charOps f y_start) text x_start]
    omega
  · rw [hform, opCount_append, opCount_append]
    rw [opCount_textOps_zero f y_start text x_start "f" (by decide) (by decide) (by decide)
      (by decide)]
    omega
  · rw [hform]
    exact (getLast_two _ _ _).1
  · rw [hform]
    exact (getLast_two _ _ _).2

/-! ## C10 — balanced and properly nested graphics state -/

theorem opCount_take_le (nm : String) (l : List Operation) (n : ℕ) :
    opCount nm (l.take n) ≤ opCount nm l :=
  List.Sublist.length_le (List.Sublist.filter _ (List.take_sublist n l))

theorem quadGroups_append : ∀ (n : ℕ) (xs ys : List Operation), xs.length ≤ n →
    quadGroups xs = true → quadGroups ys = true → quadGroups (xs ++ ys) = true := by
  intro n
  induction n with
  | zero =>
    intro xs ys hlen hx hy
    have hnil : xs = [] := List.eq_nil_of_length_eq_zero (by omega)
    subst hnil
    simpa using hy
  | succ n ih =>
    intro xs ys hlen hx hy
    match xs with
    | [] => simpa using hy
    | [o1] => simp [quadGroups] at hx
    | [o1, o2] => simp [quadGroups] at hx
    | [o1, o2, o3] => simp [quadGroups] at hx
    | o1 :: o2 :: o3 :: o4 :: rest =>
      simp only [quadGroups, Bool.and_eq_true] at hx
      simp only [List.cons_append, quadGroups, Bool.and_eq_true]
      exact ⟨hx.1, ih rest ys (by simp at hlen ⊢; omega) hx.2 hy⟩

theorem quadGroups_count_eq : ∀ (n : ℕ) (xs : List Operation), xs.length ≤ n →
    quadGroups xs = true → opCount "q" xs = opCount "Q" xs := by
  intro n
  induction n with
  | zero =>
    intro xs hlen hx
    have hnil : xs = [] := List.eq_nil_of_length_eq_zero (by omega)
    subst hnil
    rfl
  | succ n ih =>
    intro xs hlen hx
    match xs with
    | [] => rfl
    | [o1] => simp [quadGroups] at hx
    | [o1, o2] => simp [quadGroups] at hx
    | [o1, o2, o3] => simp [quadGroups] at hx
    | o1 :: o2 :: o3 :: o4 :: rest =>
      simp only [quadGroups, Bool.and_eq_true] at hx
      obtain ⟨⟨⟨⟨h1, h2⟩, h3⟩, h4⟩, h5⟩ := hx
      rw [beq_iff_eq] at h1 h2 h3 h4
      rw [opCount_cons, opCount_cons, opCount_cons, opCount_cons,
          opCount_cons, opCount_cons, opCount_cons, opCount_cons,
          h1, h2, h3, h4]
      have := ih rest (by simp at hlen ⊢; omega) h5
      simp only [show (("q" == "q") = true) from rfl, show (("cm" == "q") = false) from rfl,
        show (("Do" == "q") = false) from rfl, show (("Q" == "q") = false) from rfl,
        show (("q" == "Q") = false) from rfl, show (("cm" == "Q") = false) from rfl,
        show (("Do" == "Q") = false) from rfl, show (("Q" == "Q") = true) from rfl]
      simp only [if_pos, if_neg]
      omega

theorem quadGroups_take : ∀ (n : ℕ) (xs : List Operation), xs.length ≤ n →
    quadGroups xs = true → ∀ m, opCount "Q" (xs.take m) ≤ opCount "q" (xs.take m) := by
  intro n
  induction n with
  | zero =>
    intro xs hlen hx m
    have hnil : xs = [] := List.eq_nil_of_length_eq_zero (by omega)
    subst hnil
    simp [opCount_nil]
  | succ n ih =>
    intro xs hlen hx m
    match xs with
    | [] => simp [opCount_nil]
    | [o1] => simp [quadGroups] at hx
    | [o1, o2] => simp [quadGroups] at hx
    | [o1, o2, o3] => simp [quadGroups] at hx
    | o1 :: o2 :: o3 :: o4 :: rest =>
      simp only [quadGroups, Bool.and_eq_true] at hx
      obtain ⟨⟨⟨⟨h1, h2⟩, h3⟩, h4⟩, h5⟩ := hx
      rw [beq_iff_eq] at h1 h2 h3 h4
      match m with
      | 0 => simp [opCount_nil]
      | 1 =>
        simp only [List.take_succ_cons, List.take_zero]
        rw [opCount_cons, opCount_cons, h1]
        simp [opCount_nil]
      | 2 =>
        simp only [List.take_succ_cons, List.take_zero]
        rw [opCount_cons, opCount_cons, opCount_cons, opCount_cons, h1, h2]
        simp [opCount_nil]
      | 3 =>
        simp only [List.take_succ_cons, List.take_zero]
        rw [opCount_cons, opCount_cons, opCount_cons, opCount_cons, opCount_cons,
          opCount_cons, h1, h2, h3]
        simp [opCount_nil]
      | (m + 4) =>
        simp only [List.take_succ_cons]
        rw [opCount_cons, opCount_cons, opCount_cons, opCount_cons,
            opCount_cons, opCount_cons, opCount_cons, opCount_cons,
            h1, h2, h3, h4]
        have := ih rest (by simp at hlen ⊢; omega) h5 m
        simp only [show (("q" == "q") = true) from rfl, show (("cm" == "q") = false) from rfl,
          show (("Do" == "q") = false) from rfl, show (("Q" == "q") = false) from rfl,
          show (("q" == "Q") = false) from rfl, show (("cm" == "Q") = false) from rfl,
          show (("Do" == "Q") = false) from rfl, show (("Q" == "Q") = true) from rfl]
        simp only [if_pos, if_neg]
        omega

theorem anchorOps_quadGroups (xName : String) (c s cx cy width height u v : ℚ) :
    quadGroups (anchorOps xName c s cx cy width height u v) = true := by
  rcases anchorOps_shape xName c s cx cy width height u v with h | h <;> simp [h, quadGroups]

theorem quadGroups_flatMap {α : Type} (L : List α) (g : α → List Operation)
    (hg : ∀ a ∈ L, quadGroups (g a) = true) : quadGroups (L.flatMap g) = true := by
  induction L with
  | nil => rfl
  | cons a rest ih =>
    rw [List.flatMap_cons]
    exact quadGroups_append (g a).length _ _ le_rfl (hg a (List.mem_cons_self a rest))
      (ih fun b hb => hg b (List.mem_cons_of_mem a hb))

theorem gridLoop_quadGroups (xName : String) (c s cx cy width height v_start step_outer
    u_start step_inner : ℚ) (v_count u_count : ℕ) :
    quadGroups (gridLoop xName c s cx cy width height v_start step_outer u_start
      step_inner v_count u_count) = true := by
  apply quadGroups_flatMap
  intro vi _
  apply quadGroups_flatMap
  intro ui _
  exact anchorOps_quadGroups ..

/-- The operation list of a successful planner call is the grid loop. -/
theorem build_ok_shape (F : FloatOps) (xName : String)
    (size angle width height text_w page_rotation : ℚ) (ops : List Operation)
    (h : build_watermark_grid_ops F xName size angle width height text_w page_rotation =
      .ok ops) :
    ops = gridLoop xName (F.cos (F.toRadians (angle + page_rotation)))
      (F.sin (F.toRadians (angle + page_rotation)))
      (width / 2 + CENTER_X_OFFSET) (height / 2 - CENTER_Y_OFFSET) width height
      (-gridDiag F width height - 200) (size * GRID_VERTICAL_MULTIPLIER)
      (-gridDiag F width height) (text_w + GRID_HORIZONTAL_GAP)
      (gridVCount F size width height) (gridUCount F width height text_w) := by
  simp only [build_watermark_grid_ops] at h
  split at h
  · exact Except.noConfusion h
  · split at h
    · exact Except.noConfusion h
    · exact ((Except.ok.injEq ..).mp h).symm

/-- C10: the Vectorizer's instruction list opens with its only save-state
and closes with its only restore-state, restores never outnumbering saves in
any prefix; the Grid Planner's list is a concatenation of `q`, `cm`, `Do`,
`Q` groups, with saves and restores equal in total and balanced in every
prefix. -/
theorem C10_balanced_states :
    (∀ (f : ScaledFont) (text : List Char) (x_start y_start : ℚ),
      (text_to_pdf_paths f text x_start y_start).head? = some ⟨"q", []⟩ ∧
      (text_to_pdf_paths f text x_start y_start).getLast? = some ⟨"Q", []⟩ ∧
      opCount "q" (text_to_pdf_paths f text x_start y_start) = 1 ∧
      opCount "Q" (text_to_pdf_paths f text x_start y_start) = 1 ∧
      (∀ n, opCount "Q" ((text_to_pdf_paths f text x_start y_start).take n) ≤
        opCount "q" ((text_to_pdf_paths f text x_start y_start).take n))) ∧
    (∀ (F : FloatOps) (xName : String) (size angle width height text_w page_rotation : ℚ),
      quadGroups (resultOps (build_watermark_grid_ops F xName size angle width height
        text_w page_rotation)) = true ∧
      opCount "q" (resultOps (build_watermark_grid_ops F xName size angle width height
        text_w page_rotation)) =
        opCount "Q" (resultOps (build_watermark_grid_ops F xName size angle width height
          text_w page_rotation)) ∧
      (∀ n, opCount "Q" ((resultOps (build_watermark_grid_ops F xName size angle width
          height text_w page_rotation)).take n) ≤
        opCount "q" ((resultOps (build_watermark_grid_ops F xName size angle width height
          text_w page_rotation)).take n))) := by
  constructor
  · intro f text x_start y_start
    have hform : text_to_pdf_paths f text x_start y_start =
        ⟨"q", []⟩ :: ([⟨"gs", [.name "GS1"]⟩,
          ⟨"rg", [.num (1 / 10), .num (1 / 10), .num (1 / 10)]⟩] ++
         ((textOpsCursor f y_start text x_start).1 ++ [⟨"f", []⟩, ⟨"Q", []⟩])) := by
      simp [text_to_pdf_paths]
    have hmidq : opCount "q" (textOpsCursor f y_start text x_start).1 = 0 :=
      opCount_textOps_zero f y_start text x_start "q" (by decide) (by decide) (by decide)
        (by decide)
    have hmidQ : opCount "Q" (textOpsCursor f y_start text x_start).1 = 0 :=
      opCount_textOps_zero f y_start text x_start "Q" (by decide) (by decide) (by decide)
        (by decide)
    have htail : opCount "Q" ([⟨"gs", [.name "GS1"]⟩,
        ⟨"rg", [.num (1 / 10), .num (1 / 10), .num (1 / 10)]⟩] ++
        ((textOpsCursor f y_start text x_start).1 ++ [⟨"f", []⟩, ⟨"Q", []⟩])) = 1 := by
      rw [opCount_append, opCount_append, hmidQ]
      rfl
    refine ⟨?_, ?_, ?_, ?_, ?_⟩
    · rw [hform]; rfl
    · rw [show text_to_pdf_paths f text x_start y_start =
        ([⟨"q", []⟩, ⟨"gs", [.name "GS1"]⟩,
          ⟨"rg", [.num (1 / 10), .num (1 / 10), .num (1 / 10)]⟩] ++
         (textOpsCursor f y_start text x_start).1) ++ [⟨"f", []⟩, ⟨"Q", []⟩] by
          simp [text_to_pdf_paths]]
      exact (getLast_two _ _ _).1
    · rw [hform, opCount_cons, opCount_append, opCount_append, hmidq]
      rfl
    · rw [hform, opCount_cons]
      rw [htail]
      rfl
    · intro n
      rw [hform]
      match n with
      | 0 => simp [opCount_nil]
      | (n + 1) =>
        rw [List.take_succ_cons]
        rw [show ∀ l, opCount "Q" ((⟨"q", []⟩ : Operation) :: l) = opCount "Q" l from
          fun l => rfl]
        rw [show ∀ l, opCount "q" ((⟨"q", []⟩ : Operation) :: l) = opCount "q" l + 1 from
          fun l => rfl]
        have h1 : opCount "Q" ((([(⟨"gs", [.name "GS1"]⟩ : Operation),
            ⟨"rg", [.num (1 / 10), .num (1 / 10), .num (1 / 10)]⟩] ++
            ((textOpsCursor f y_start text x_start).1 ++
              ([⟨"f", []⟩, ⟨"Q", []⟩] : List Operation)))).take n) ≤ 1 := by
          calc opCount "Q" _ ≤ _ := opCount_take_le "Q" _ n
            _ = 1 := htail
        omega
  · intro F xName size angle width height text_w page_rotation
    rcases hbuild : build_watermark_grid_ops F xName size angle width height text_w
        page_rotation with e | ops
    · refine ⟨rfl, rfl, ?_⟩
      intro n
      simp [resultOps, opCount_nil]
    · have hshape := build_ok_shape F xName size angle width height text_w page_rotation
        ops hbuild
      have hquad : quadGroups ops = true := by rw [hshape]; exact gridLoop_quadGroups ..
      simp only [resultOps]
      exact ⟨hquad, quadGroups_count_eq ops.length ops le_rfl hquad,
        fun n => quadGroups_take ops.length ops le_rfl hquad n⟩

/-- Witness for C10 at a concrete vectorizer call. -/
theorem C10_balanced_states_witness :
    (text_to_pdf_paths emptyFont [] 0 0).head? = some ⟨"q", []⟩ :=
  (C10_balanced_states.1 emptyFont [] 0 0).1

/-! ## C9 — per-page isolation -/

/-- C9 as amended: the per-page loop is total — it never aborts, and every
page of the input list receives exactly one outcome, in document order,
whatever mix of resource, grid (sizing/density) or content failures the
pages produce.  Grid errors, like structural ones, skip only their page. -/
theorem C9_amended_isolation (F : FloatOps)
    (appendContent : PDoc → ObjId → List Operation → Except String PDoc)
    (xid : ObjId) (text_w : ℚ) (doc : PDoc) (pages : List (ℕ × ObjId)) :
    ((processPages F appendContent xid text_w doc pages).2.map Prod.fst =
      pages.map Prod.fst) ∧
    (processPages F appendContent xid text_w doc pages).2.length = pages.length := by
  have hmap : ∀ (pages : List (ℕ × ObjId)) (doc : PDoc),
      (processPages F appendContent xid text_w doc pages).2.map Prod.fst =
        pages.map Prod.fst := by
    intro pages
    induction pages with
    | nil => intro doc; rfl
    | cons pg rest ih =>
      intro doc
      obtain ⟨pageNum, pid⟩ := pg
      simp only [processPages]
      rcases hx : add_xobject_to_page doc pid "Watermark1" xid with e | doc1
      · simp [hx, ih]
      · rcases hb : build_watermark_grid_ops F "Watermark1" DEFAULT_FONT_SIZE
            WATERMARK_ANGLE_DEG (pageSizeOrDefault doc pid).1 (pageSizeOrDefault doc pid).2
            text_w (get_page_rotation doc pid) with e | ops
        · simp [hx, hb, ih]
        · rcases ha : appendContent doc1 pid ops with e | doc2
          · simp [hx, hb, ha, ih]
          · simp [hx, hb, ha, ih]
  refine ⟨hmap pages doc, ?_⟩
  have h := congrArg List.length (hmap pages doc)
  simpa using h

/-- Oracle for the C9 counterexample: `sqrt` of the default page's squared
diagonal is 1031, of the huge page's is 1414213562. -/
def c9F : FloatOps :=
  ⟨fun q => if q = 595 ^ 2 + 842 ^ 2 then 1031 else 1414213562,
   fun _ => 1, fun _ => 0, fun q => q⟩

/-- A three-page document: pages 1 and 3 are plain dictionaries (default
page size), page 2 declares a `MediaBox` of a 10⁹ × 10⁹ page. -/
def c9doc : PDoc := fun id =>
  if id = (1, 0) then some (.dict [])
  else if id = (2, 0) then
    some (.dict [("MediaBox", .array [.integer 0, .integer 0,
      .integer 1000000000, .integer 1000000000])])
  else if id = (3, 0) then some (.dict []) else none

/-- A content-append oracle that always succeeds. -/
def appendOk : PDoc → ObjId → List Operation → Except String PDoc := fun d _ _ => .ok d

/-- Is the outcome a density-error skip? -/
def isDensitySkip : PageOutcome → Bool
  | .skippedGrid (.tooMany _) => true
  | _ => false

attribute [local semireducible] Rat.mul Rat.add Rat.inv Rat.sub in
/-- C9 counterexample.  On the three-page document the run completes with
one outcome per page: page 2's grid build fails with the **density error**
and the page is skipped, while pages 1 and 3 — including page 3, after the
failure — are watermarked; the density error does not make the run fail,
contradicting the claim that the run fails on density errors. -/
theorem C9_counterexample :
    ((processPages c9F appendOk (99, 0) 570 c9doc
        [(1, (1, 0)), (2, (2, 0)), (3, (3, 0))]).2.map Prod.fst = [1, 2, 3]) ∧
    ((processPages c9F appendOk (99, 0) 570 c9doc
        [(1, (1, 0)), (2, (2, 0)), (3, (3, 0))]).2.getD 0
          (0, PageOutcome.skippedResources)).2 = PageOutcome.ok ∧
    isDensitySkip ((processPages c9F appendOk (99, 0) 570 c9doc
        [(1, (1, 0)), (2, (2, 0)), (3, (3, 0))]).2.getD 1
          (0, PageOutcome.skippedResources)).2 = true ∧
    ((processPages c9F appendOk (99, 0) 570 c9doc
        [(1, (1, 0)), (2, (2, 0)), (3, (3, 0))]).2.getD 2
          (0, PageOutcome.skippedResources)).2 = PageOutcome.ok := by
  refine ⟨by decide, by decide, by decide, by decide⟩

end Watermark
